import Mathlib

/-!
Verification of `src/lintAndFormatChanges/Utils/FileHandler.py`.

The Python module is embedded shallowly:

* a filesystem / subprocess environment `Env` supplies the results of the
  external collaborators (`git` invocations via `subprocess.check_output`,
  `glob.glob`, `Path.exists`, `Path.read_text`);
* paths are modelled as `String`s normalised the way `pathlib.PurePosixPath`
  normalises its argument (leading `./`, empty components and trailing
  slashes dropped; `""` becomes `"."`; `".."` components are kept);
* Python `set` becomes `Finset String`; Python exceptions become the
  `Except PyError` monad;
* `createTmpDir` acts on the list of entry names of the per-user directory
  (the names yielded by `userTmpDir.iterdir()`), returning the name of the
  created revision directory together with the entry list after creation.
-/

set_option autoImplicit false

namespace FileHandler

/-- Python ASCII whitespace, as stripped by `bytes.strip()`. -/
def isPyWhitespace (c : Char) : Bool :=
  c = ' ' || c = '\t' || c = '\n' || c = '\x0d' || c = '\x0b' || c = '\x0c'

/-- Model of `bytes.strip()` / `str.strip()`: drop leading and trailing
whitespace. -/
def pyStrip (s : String) : String :=
  let cs := s.toList.dropWhile isPyWhitespace
  String.mk (cs.reverse.dropWhile isPyWhitespace).reverse

/-- Splitting a character list at every occurrence of `c`; the result always
has one more piece than there are occurrences of `c`, so splitting the empty
list gives `[[]]`, exactly like Python `str.split`. -/
def splitChar (c : Char) : List Char → List (List Char)
  | [] => [[]]
  | x :: xs =>
    let rest := splitChar c xs
    if x = c then [] :: rest
    else
      match rest with
      | [] => [[x]]
      | r :: rs => (x :: r) :: rs

/-- Model of Python `str.split("\n")`. -/
def pySplitNl (s : String) : List String :=
  (splitChar '\n' s.toList).map String.mk

/-- Value of an ASCII decimal digit. -/
def digitVal (c : Char) : Option Nat :=
  if c.isDigit then some (c.toNat - 48) else none

/-- Digits of an integer literal after the first one, allowing single
underscores between digits as Python `int()` does. -/
def pyDigitsTail (acc : Nat) : List Char → Option Nat
  | [] => some acc
  | '_' :: c :: rest =>
    match digitVal c with
    | some d => pyDigitsTail (acc * 10 + d) rest
    | none => none
  | c :: rest =>
    match digitVal c with
    | some d => pyDigitsTail (acc * 10 + d) rest
    | none => none

/-- A nonempty run of digits (with `_` separators), the body of a Python
integer literal. -/
def pyDigits : List Char → Option Nat
  | [] => none
  | c :: rest =>
    match digitVal c with
    | some d => pyDigitsTail d rest
    | none => none

/-- Model of Python `int(s)` on ASCII strings: surrounding whitespace is
ignored, an optional sign precedes the digits, single underscores may
separate digits; `none` models the `ValueError` raised on anything else. -/
def pyInt (s : String) : Option Int :=
  let cs := s.toList.dropWhile isPyWhitespace
  let cs := (cs.reverse.dropWhile isPyWhitespace).reverse
  match cs with
  | '-' :: rest => (pyDigits rest).map (fun n => -(n : Int))
  | '+' :: rest => (pyDigits rest).map (fun n => (n : Int))
  | rest => (pyDigits rest).map (fun n => (n : Int))

/-- Model of `pathlib.Path(s)` (POSIX flavour): empty and `"."` components
are dropped, a leading `/` is kept, and the empty path is the current
directory `"."`. -/
def pathOfString (s : String) : String :=
  let parts := (splitChar '/' s.toList).filter (fun p => !p.isEmpty && p ≠ ['.'])
  match s.toList with
  | '/' :: _ => String.mk ('/' :: List.intercalate ['/'] parts)
  | _ => if parts.isEmpty then "." else String.mk (List.intercalate ['/'] parts)

/-- Python `max` on a list (`none` on the empty list, where Python raises). -/
def pyMax (l : List Int) : Option Int :=
  match l with
  | [] => none
  | x :: xs => some (xs.foldl max x)

/-- The exceptions the module can raise: `subprocess.CalledProcessError`
(carrying the command line and exit code), the `ValueError` of `int()`
(carrying the offending name), the `AssertionError` of the existence
check in `getGlobsFromFile`, and `FileExistsError` from `mkdir`. -/
inductive PyError where
  | calledProcessError (cmd : List String) (exitCode : Nat)
  | valueError (badName : String)
  | assertionError
  | fileExistsError (path : String)
  deriving DecidableEq, Repr

/-- The external world: results of `git` subprocess invocations (stdout on
exit 0, the nonzero exit code otherwise), `Path.exists`, `glob.glob`
(with `recursive=True`), and `Path.read_text`. -/
structure Env where
  runGit : List String → Except Nat String
  pathExists : String → Bool
  glob : String → List String
  readText : String → String

/-- Model of `subprocess.check_output`: returns stdout, or raises
`CalledProcessError` carrying the command and exit code. -/
def checkOutput (env : Env) (cmd : List String) : Except PyError String :=
  match env.runGit cmd with
  | .ok out => .ok out
  | .error code => .error (.calledProcessError cmd code)

/-- Location of the allowlist config file, `Path(__file__).parent /
"../config/allowlist.txt"` in the source (pathlib keeps the `..`). -/
def ALLOWLISTPATH : String :=
  "src/lintAndFormatChanges/Utils/../config/allowlist.txt"

/-- Location of the denylist config file. -/
def DENYLISTPATH : String :=
  "src/lintAndFormatChanges/Utils/../config/denylist.txt"

/-- The loop of `createTmpDir`: convert each entry name with `int()`,
raising `ValueError` at the first name that does not parse. -/
def parseSubdirs : List String → Except PyError (List Int)
  | [] => .ok []
  | name :: rest =>
    match pyInt name with
    | some n => (parseSubdirs rest).map (fun l => n :: l)
    | none => .error (.valueError name)

/-- Model of `createTmpDir`, acting on the entry names of the per-user
directory `baseDir / getpass.getuser()` (after its idempotent creation).
On success it returns the name of the new revision directory and the
entry list afterwards; an error means nothing was created, since in the
source `revisionDir.mkdir()` runs only after the whole loop succeeds. -/
def createTmpDir (entries : List String) : Except PyError (String × List String) := do
  let subdirs ← parseSubdirs entries
  let revision : Int :=
    match pyMax subdirs with
    | some m => m + 1
    | none => 0
  let name := toString revision
  if name ∈ entries then
    .error (.fileExistsError name)
  else
    .ok (name, entries ++ [name])

/-- Model of `getMergeBase`: `git merge-base start end`, stripped. -/
def getMergeBase (env : Env) (start : String) (stop : String := "HEAD") :
    Except PyError String := do
  let out ← checkOutput env ["git", "merge-base", start, stop]
  return pyStrip out

/-- Model of `getChangedFiles`: `git diff --name-only`, stripped, split on
newlines, each line converted to a `Path`, and paths that do not exist
filtered out. -/
def getChangedFiles (env : Env) (fromCommit : String) (toCommit : String := "HEAD") :
    Except PyError (List String) := do
  let out ← checkOutput env ["git", "diff", "--name-only", fromCommit, toCommit]
  let pathStrings := pySplitNl (pyStrip out)
  let changed := pathStrings.map pathOfString
  return changed.filter (fun p => env.pathExists p)

/-- Model of `getAllTrackedFiles`: `git ls-tree -r --full-tree --name-only
HEAD`, stripped, split on newlines, each line converted to a `Path`.
No existence filter is applied. -/
def getAllTrackedFiles (env : Env) : Except PyError (List String) := do
  let out ← checkOutput env ["git", "ls-tree", "-r", "--full-tree", "--name-only", "HEAD"]
  let pathStrings := pySplitNl (pyStrip out)
  return pathStrings.map pathOfString

/-- Model of `getGlobsFromFile`: read the glob-list file, split on
newlines, expand every pattern and union the results into a set, then
assert that every member exists. -/
def getGlobsFromFile (env : Env) (globlistFile : String) :
    Except PyError (Finset String) :=
  let globStrings := pySplitNl (env.readText globlistFile)
  let pathSet : Finset String :=
    globStrings.foldl
      (fun acc g => acc ∪ ((env.glob g).map pathOfString).toFinset) ∅
  if ∀ p ∈ pathSet, env.pathExists p then .ok pathSet
  else .error .assertionError

/-- Model of `getFormattablePaths`: allowlist expansion minus denylist
expansion. -/
def getFormattablePaths (env : Env) : Except PyError (Finset String) := do
  let allowlistPaths ← getGlobsFromFile env ALLOWLISTPATH
  let denylistPaths ← getGlobsFromFile env DENYLISTPATH
  return allowlistPaths \ denylistPaths

/-- Model of `getFilesToFormat`: changed files since the merge base,
intersected with the formattable set. -/
def getFilesToFormat (env : Env) (changedSince : String) :
    Except PyError (Finset String) := do
  let mergeBase ← getMergeBase env changedSince
  let changedFiles ← getChangedFiles env mergeBase
  let formattablePaths ← getFormattablePaths env
  return changedFiles.toFinset ∩ formattablePaths

/-- Model of `getTrackedFormattablePaths`: tracked files intersected with
the formattable set. -/
def getTrackedFormattablePaths (env : Env) : Except PyError (Finset String) := do
  let trackedFiles ← getAllTrackedFiles env
  let formattablePaths ← getFormattablePaths env
  return trackedFiles.toFinset ∩ formattablePaths

end FileHandler

deriving instance DecidableEq for Except

namespace FileHandler

/-- A concrete healthy repository used to instantiate theorems: the merge
base of `main` and `HEAD` is `abc123`, the diff against it names `a.py`,
`b.txt` and `c.py`, the allowlist expands to the three `.py` files and the
denylist to `c.py` (which is also allowlisted). -/
def sampleEnv : Env where
  runGit := fun cmd =>
    if cmd = ["git", "merge-base", "main", "HEAD"] then .ok "abc123\n"
    else if cmd = ["git", "diff", "--name-only", "abc123", "HEAD"] then
      .ok "a.py\nb.txt\nc.py\n"
    else if cmd = ["git", "ls-tree", "-r", "--full-tree", "--name-only", "HEAD"] then
      .ok "a.py\nb.txt\nd.py"
    else .error 1
  pathExists := fun p => (["a.py", "b.txt", "c.py", "d.py", "."] : List String).contains p
  glob := fun g =>
    if g = "*.py" then ["a.py", "c.py", "d.py"]
    else if g = "c.py" then ["c.py"]
    else []
  readText := fun f =>
    if f = ALLOWLISTPATH then "*.py\n\nmisc/*"
    else if f = DENYLISTPATH then "c.py"
    else ""

/-- An environment in which every `git` invocation exits with code 1. -/
def failEnv : Env where
  runGit := fun _ => .error 1
  pathExists := fun _ => false
  glob := fun _ => []
  readText := fun _ => ""

/-- An environment in which the merge-base computation succeeds but every
other `git` invocation, the diff in particular, exits with code 1. -/
def diffFailEnv : Env where
  runGit := fun cmd =>
    if cmd = ["git", "merge-base", "main", "HEAD"] then .ok "abc123" else .error 1
  pathExists := fun _ => false
  glob := fun _ => []
  readText := fun _ => ""

/-- An environment whose `git ls-tree` reports a file that is absent from
the working tree, and whose diff and ls-tree outputs are otherwise empty. -/
def ghostEnv : Env where
  runGit := fun cmd =>
    if cmd = ["git", "ls-tree", "-r", "--full-tree", "--name-only", "HEAD"] then
      .ok "ghost.txt"
    else if cmd = ["git", "diff", "--name-only", "abc123", "HEAD"] then .ok "\n"
    else .error 1
  pathExists := fun p => p = "."
  glob := fun _ => []
  readText := fun _ => ""

/-- An environment in which both the diff and the tracked-file listing
produce output that strips to the empty string, and the current directory
exists. -/
def emptyEnv : Env where
  runGit := fun cmd =>
    if cmd = ["git", "diff", "--name-only", "base", "HEAD"] then .ok ""
    else if cmd = ["git", "ls-tree", "-r", "--full-tree", "--name-only", "HEAD"] then
      .ok "\n"
    else .error 1
  pathExists := fun p => p = "."
  glob := fun _ => []
  readText := fun _ => ""

/-- Claim C1: whenever the merge-base, diff and formattable-set
computations all succeed, `getFilesToFormat changedSince` returns exactly
the intersection of the changed files since
`getMergeBase changedSince` with `getFormattablePaths ()`. -/
theorem getFilesToFormat_eq_intersection (env : Env) (changedSince mb : String)
    (cf : List String) (fp : Finset String)
    (h1 : getMergeBase env changedSince = .ok mb)
    (h2 : getChangedFiles env mb = .ok cf)
    (h3 : getFormattablePaths env = .ok fp) :
    getFilesToFormat env changedSince = .ok (cf.toFinset ∩ fp) := by
  simp only [getFilesToFormat, bind, Except.bind, pure, Except.pure, h1, h2, h3]

/-- Witness for C1 on `sampleEnv`: changed files `{a.py, b.txt, c.py}`
intersected with the formattable set `{a.py, d.py}` give `{a.py}`. -/
theorem getFilesToFormat_eq_intersection_witness :
    getFilesToFormat sampleEnv "main" = .ok {"a.py"} :=
  Eq.trans
    (getFilesToFormat_eq_intersection sampleEnv "main" "abc123"
      ["a.py", "b.txt", "c.py"] {"a.py", "d.py"} (by decide) (by decide) (by decide))
    (by decide)

/-- Claim C2: whenever both glob-list resolutions succeed,
`getFormattablePaths ()` returns the allowlist expansion minus the
denylist expansion, and no denylisted path is ever in the result, even a
path the allowlist also matched. -/
theorem getFormattablePaths_sdiff (env : Env) (allow deny : Finset String)
    (h1 : getGlobsFromFile env ALLOWLISTPATH = .ok allow)
    (h2 : getGlobsFromFile env DENYLISTPATH = .ok deny) :
    getFormattablePaths env = .ok (allow \ deny) ∧
      ∀ p ∈ deny, p ∉ allow \ deny := by
  refine ⟨?_, ?_⟩
  · simp only [getFormattablePaths, bind, Except.bind, pure, Except.pure, h1, h2]
  · intro p hp
    simp [Finset.mem_sdiff, hp]

/-- Witness for C2 on `sampleEnv`: `c.py` is both allowlisted and
denylisted, and is excluded from the formattable set. -/
theorem getFormattablePaths_sdiff_witness :
    getFormattablePaths sampleEnv = .ok ({"a.py", "c.py", "d.py"} \ {"c.py"}) ∧
      "c.py" ∉ ({"a.py", "c.py", "d.py"} : Finset String) \ {"c.py"} :=
  ⟨(getFormattablePaths_sdiff sampleEnv {"a.py", "c.py", "d.py"} {"c.py"}
      (by decide) (by decide)).1,
   (getFormattablePaths_sdiff sampleEnv {"a.py", "c.py", "d.py"} {"c.py"}
      (by decide) (by decide)).2 "c.py" (by decide)⟩

/-- Claim C9: when the diff command succeeds with output `out`,
`getChangedFiles` returns (without error) exactly the paths named in
`out` that currently exist; a changed-but-deleted path is silently
dropped. -/
theorem getChangedFiles_filters_existing (env : Env) (fromCommit toCommit out : String)
    (h : env.runGit ["git", "diff", "--name-only", fromCommit, toCommit] = .ok out) :
    getChangedFiles env fromCommit toCommit =
      .ok (((pySplitNl (pyStrip out)).map pathOfString).filter
        (fun p => env.pathExists p)) ∧
      ∀ p, p ∈ ((pySplitNl (pyStrip out)).map pathOfString).filter
          (fun p => env.pathExists p) ↔
        p ∈ (pySplitNl (pyStrip out)).map pathOfString ∧ env.pathExists p := by
  constructor
  · simp only [getChangedFiles, checkOutput, h, bind, Except.bind, pure, Except.pure]
  · intro p
    simp [List.mem_filter]

/-- Witness for C9 on `ghostEnv`: the diff output strips to the empty
string, so the single candidate is `"."`, which exists. -/
theorem getChangedFiles_filters_existing_witness :
    getChangedFiles ghostEnv "abc123" "HEAD" = .ok ["."] :=
  Eq.trans
    (getChangedFiles_filters_existing ghostEnv "abc123" "HEAD" "\n" (by decide)).1
    (by decide)

/-- Claim C10: when the diff and tracked-file commands produce output that
strips to the empty string, splitting yields the single empty string,
whose `Path` is `"."`; since `"."` exists, both `getChangedFiles` and
`getAllTrackedFiles` return the one-element list `[Path ""]`, not the
empty list. -/
theorem emptyOutput_yields_dot (env : Env) (fromCommit toCommit outDiff outLs : String)
    (h1 : env.runGit ["git", "diff", "--name-only", fromCommit, toCommit] = .ok outDiff)
    (h2 : pyStrip outDiff = "")
    (h3 : env.pathExists "." = true)
    (h4 : env.runGit ["git", "ls-tree", "-r", "--full-tree", "--name-only", "HEAD"] =
      .ok outLs)
    (h5 : pyStrip outLs = "") :
    getChangedFiles env fromCommit toCommit = .ok ["."] ∧
      getAllTrackedFiles env = .ok ["."] := by
  constructor
  · simp only [getChangedFiles, checkOutput, h1, bind, Except.bind, pure, Except.pure, h2]
    simp [pySplitNl, splitChar, pathOfString, h3]
  · simp only [getAllTrackedFiles, checkOutput, h4, bind, Except.bind, pure, Except.pure,
      h5]
    simp [pySplitNl, splitChar, pathOfString]

/-- Witness for C10 on `emptyEnv`. -/
theorem emptyOutput_yields_dot_witness :
    getChangedFiles emptyEnv "base" "HEAD" = .ok ["."] ∧
      getAllTrackedFiles emptyEnv = .ok ["."] :=
  emptyOutput_yields_dot emptyEnv "base" "HEAD" "" "\n"
    (by decide) (by decide) (by decide) (by decide) (by decide)

/-- Membership in a left fold of unions: a path is in the accumulated set
iff it was in the initial set or in the image of some list element. -/
theorem mem_foldl_union (f : String → Finset String) (l : List String)
    (init : Finset String) (p : String) :
    p ∈ l.foldl (fun acc g => acc ∪ f g) init ↔ p ∈ init ∨ ∃ g ∈ l, p ∈ f g := by
  induction l generalizing init with
  | nil => simp
  | cons x xs ih =>
    simp only [List.foldl_cons, ih, Finset.mem_union, List.mem_cons]
    constructor
    · rintro (⟨hi | hx⟩ | ⟨g, hg, hpg⟩)
      · exact Or.inl hi
      · exact Or.inr ⟨x, Or.inl rfl, hx⟩
      · exact Or.inr ⟨g, Or.inr hg, hpg⟩
    · rintro (hi | ⟨g, rfl | hg, hpg⟩)
      · exact Or.inl (Or.inl hi)
      · exact Or.inl (Or.inr hpg)
      · exact Or.inr ⟨g, hg, hpg⟩

/-- Claim C3: if every path any line of the glob-list file expands to
exists on disk (as `glob` guarantees on a race-free filesystem), then
`getGlobsFromFile` succeeds and returns exactly the union over all lines
of each line's individual expansion, deduplicated as a set; a line with
zero matches (an empty line included) contributes nothing and causes no
error. -/
theorem getGlobsFromFile_is_union (env : Env) (f : String)
    (h : ∀ g ∈ pySplitNl (env.readText f), ∀ q ∈ env.glob g,
      env.pathExists (pathOfString q)) :
    getGlobsFromFile env f =
      .ok ((pySplitNl (env.readText f)).foldl
        (fun acc g => acc ∪ ((env.glob g).map pathOfString).toFinset) ∅) ∧
    ∀ p, p ∈ (pySplitNl (env.readText f)).foldl
        (fun acc g => acc ∪ ((env.glob g).map pathOfString).toFinset) ∅ ↔
      ∃ g ∈ pySplitNl (env.readText f), p ∈ (env.glob g).map pathOfString := by
  have hmem : ∀ p, p ∈ (pySplitNl (env.readText f)).foldl
      (fun acc g => acc ∪ ((env.glob g).map pathOfString).toFinset) ∅ ↔
      ∃ g ∈ pySplitNl (env.readText f), p ∈ (env.glob g).map pathOfString := by
    intro p
    rw [mem_foldl_union]
    simp
  refine ⟨?_, hmem⟩
  unfold getGlobsFromFile
  rw [if_pos]
  intro p hp
  obtain ⟨g, hg, hq⟩ := (hmem p).mp hp
  obtain ⟨q, hq1, hq2⟩ := List.mem_map.mp hq
  exact hq2 ▸ h g hg q hq1

/-- Witness for C3 on `sampleEnv`: the allowlist file has lines `*.py`,
an empty line and `misc/*`; the latter two match nothing and the union is
the expansion of `*.py`. -/
theorem getGlobsFromFile_is_union_witness :
    getGlobsFromFile sampleEnv ALLOWLISTPATH = .ok {"a.py", "c.py", "d.py"} :=
  Eq.trans (getGlobsFromFile_is_union sampleEnv ALLOWLISTPATH (by decide)).1 (by decide)

/-- Claim C7: whenever an underlying `git` invocation exits non-zero, the
dependent public operations surface `CalledProcessError` (carrying that
command and exit code) unchanged, returning no partial output: this holds
for `getMergeBase` and `getFilesToFormat` on a merge-base failure, for
`getChangedFiles` on a diff failure, for `getAllTrackedFiles` and
`getTrackedFormattablePaths` on an ls-tree failure, and for
`getFilesToFormat` on a diff failure after a successful merge-base. -/
theorem vcs_failure_propagation (env : Env) (s fc tc : String) (code : Nat) :
    (env.runGit ["git", "merge-base", s, "HEAD"] = .error code →
      getMergeBase env s =
        .error (.calledProcessError ["git", "merge-base", s, "HEAD"] code) ∧
      getFilesToFormat env s =
        .error (.calledProcessError ["git", "merge-base", s, "HEAD"] code)) ∧
    (env.runGit ["git", "diff", "--name-only", fc, tc] = .error code →
      getChangedFiles env fc tc =
        .error (.calledProcessError ["git", "diff", "--name-only", fc, tc] code)) ∧
    (env.runGit ["git", "ls-tree", "-r", "--full-tree", "--name-only", "HEAD"] =
        .error code →
      getAllTrackedFiles env =
        .error (.calledProcessError
          ["git", "ls-tree", "-r", "--full-tree", "--name-only", "HEAD"] code) ∧
      getTrackedFormattablePaths env =
        .error (.calledProcessError
          ["git", "ls-tree", "-r", "--full-tree", "--name-only", "HEAD"] code)) ∧
    (∀ out, env.runGit ["git", "merge-base", s, "HEAD"] = .ok out →
      env.runGit ["git", "diff", "--name-only", pyStrip out, "HEAD"] = .error code →
      getFilesToFormat env s =
        .error (.calledProcessError
          ["git", "diff", "--name-only", pyStrip out, "HEAD"] code)) := by
  refine ⟨fun h => ⟨?_, ?_⟩, fun h => ?_, fun h => ⟨?_, ?_⟩, fun out h1 h2 => ?_⟩
  · simp only [getMergeBase, checkOutput, h, bind, Except.bind]
  · simp only [getFilesToFormat, getMergeBase, checkOutput, h, bind, Except.bind]
  · simp only [getChangedFiles, checkOutput, h, bind, Except.bind]
  · simp only [getAllTrackedFiles, checkOutput, h, bind, Except.bind]
  · simp only [getTrackedFormattablePaths, getAllTrackedFiles, checkOutput, h, bind,
      Except.bind]
  · simp only [getFilesToFormat, getMergeBase, getChangedFiles, checkOutput, h1, h2,
      bind, Except.bind, pure, Except.pure]

/-- Witness for C7 on `failEnv` (every invocation exits 1) and on
`diffFailEnv` (merge-base succeeds, the diff exits 1). -/
theorem vcs_failure_propagation_witness :
    getMergeBase failEnv "main" =
      .error (.calledProcessError ["git", "merge-base", "main", "HEAD"] 1) ∧
    getFilesToFormat failEnv "main" =
      .error (.calledProcessError ["git", "merge-base", "main", "HEAD"] 1) ∧
    getChangedFiles failEnv "a" "b" =
      .error (.calledProcessError ["git", "diff", "--name-only", "a", "b"] 1) ∧
    getAllTrackedFiles failEnv =
      .error (.calledProcessError
        ["git", "ls-tree", "-r", "--full-tree", "--name-only", "HEAD"] 1) ∧
    getTrackedFormattablePaths failEnv =
      .error (.calledProcessError
        ["git", "ls-tree", "-r", "--full-tree", "--name-only", "HEAD"] 1) ∧
    getFilesToFormat diffFailEnv "main" =
      .error (.calledProcessError ["git", "diff", "--name-only", "abc123", "HEAD"] 1) :=
  ⟨((vcs_failure_propagation failEnv "main" "a" "b" 1).1 (by decide)).1,
   ((vcs_failure_propagation failEnv "main" "a" "b" 1).1 (by decide)).2,
   (vcs_failure_propagation failEnv "main" "a" "b" 1).2.1 (by decide),
   ((vcs_failure_propagation failEnv "main" "a" "b" 1).2.2.1 (by decide)).1,
   ((vcs_failure_propagation failEnv "main" "a" "b" 1).2.2.1 (by decide)).2,
   (vcs_failure_propagation diffFailEnv "main" "a" "b" 1).2.2.2 "abc123"
     (by decide) (by decide)⟩

/-- Every path in a successful glob-list resolution exists: the assertion
before the return guarantees it. -/
theorem getGlobsFromFile_ok_exists (env : Env) (f : String) (s : Finset String)
    (h : getGlobsFromFile env f = .ok s) : ∀ p ∈ s, env.pathExists p := by
  unfold getGlobsFromFile at h
  dsimp only at h
  split at h
  · rename_i hall
    injection h with h
    subst h
    exact hall
  · exact Except.noConfusion h

/-- Every path in a successful formattable-set resolution exists, being a
member of the allowlist expansion. -/
theorem getFormattablePaths_ok_exists (env : Env) (s : Finset String)
    (h : getFormattablePaths env = .ok s) : ∀ p ∈ s, env.pathExists p := by
  cases ha : getGlobsFromFile env ALLOWLISTPATH with
  | error e => simp only [getFormattablePaths, ha, bind, Except.bind] at h
               exact Except.noConfusion h
  | ok allow =>
    cases hd : getGlobsFromFile env DENYLISTPATH with
    | error e => simp only [getFormattablePaths, ha, hd, bind, Except.bind] at h
                 exact Except.noConfusion h
    | ok deny =>
      simp only [getFormattablePaths, ha, hd, bind, Except.bind, pure, Except.pure,
        Except.ok.injEq] at h
      subst h
      intro p hp
      exact getGlobsFromFile_ok_exists env ALLOWLISTPATH allow ha p
        (Finset.mem_sdiff.mp hp).1

/-- Every path in a successful changed-file listing exists, by the
existence filter. -/
theorem getChangedFiles_ok_exists (env : Env) (fc tc : String) (l : List String)
    (h : getChangedFiles env fc tc = .ok l) : ∀ p ∈ l, env.pathExists p := by
  cases hg : env.runGit ["git", "diff", "--name-only", fc, tc] with
  | error c => simp only [getChangedFiles, checkOutput, hg, bind, Except.bind] at h
               exact Except.noConfusion h
  | ok out =>
    simp only [getChangedFiles, checkOutput, hg, bind, Except.bind, pure, Except.pure,
      Except.ok.injEq] at h
    subst h
    intro p hp
    exact (List.mem_filter.mp hp).2

/-- Every path in a successful `getFilesToFormat` result exists, being in
the formattable set. -/
theorem getFilesToFormat_ok_exists (env : Env) (c : String) (s : Finset String)
    (h : getFilesToFormat env c = .ok s) : ∀ p ∈ s, env.pathExists p := by
  cases hm : getMergeBase env c with
  | error e => simp only [getFilesToFormat, hm, bind, Except.bind] at h
               exact Except.noConfusion h
  | ok mb =>
    cases hc : getChangedFiles env mb with
    | error e => simp only [getFilesToFormat, hm, hc, bind, Except.bind] at h
                 exact Except.noConfusion h
    | ok cf =>
      cases hf : getFormattablePaths env with
      | error e => simp only [getFilesToFormat, hm, hc, hf, bind, Except.bind] at h
                   exact Except.noConfusion h
      | ok fp =>
        simp only [getFilesToFormat, hm, hc, hf, bind, Except.bind, pure, Except.pure,
          Except.ok.injEq] at h
        subst h
        intro p hp
        exact getFormattablePaths_ok_exists env fp hf p (Finset.mem_inter.mp hp).2

/-- Every path in a successful `getTrackedFormattablePaths` result exists,
being in the formattable set. -/
theorem getTrackedFormattablePaths_ok_exists (env : Env) (s : Finset String)
    (h : getTrackedFormattablePaths env = .ok s) : ∀ p ∈ s, env.pathExists p := by
  cases ht : getAllTrackedFiles env with
  | error e => simp only [getTrackedFormattablePaths, ht, bind, Except.bind] at h
               exact Except.noConfusion h
  | ok tr =>
    cases hf : getFormattablePaths env with
    | error e => simp only [getTrackedFormattablePaths, ht, hf, bind, Except.bind] at h
                 exact Except.noConfusion h
    | ok fp =>
      simp only [getTrackedFormattablePaths, ht, hf, bind, Except.bind, pure,
        Except.pure, Except.ok.injEq] at h
      subst h
      intro p hp
      exact getFormattablePaths_ok_exists env fp hf p (Finset.mem_inter.mp hp).2

/-- Counterexample to C8 as stated: `getAllTrackedFiles` applies no
existence filter, so in `ghostEnv` it returns `ghost.txt`, a path that
does not exist on disk. -/
theorem tracked_existence_counterexample :
    getAllTrackedFiles ghostEnv = .ok ["ghost.txt"] ∧
      ghostEnv.pathExists "ghost.txt" = false := by
  decide

/-- Claim C8 (amended): every path returned by glob resolution, by the
formattable-set resolution, by the changed-file listing and by the two
composed selection queries exists on disk at return time; the tracked-file
listing is the exception and may return paths that no longer exist. -/
theorem resolution_existence_invariant (env : Env) :
    (∀ f s, getGlobsFromFile env f = .ok s → ∀ p ∈ s, env.pathExists p) ∧
    (∀ s, getFormattablePaths env = .ok s → ∀ p ∈ s, env.pathExists p) ∧
    (∀ fc tc l, getChangedFiles env fc tc = .ok l → ∀ p ∈ l, env.pathExists p) ∧
    (∀ c s, getFilesToFormat env c = .ok s → ∀ p ∈ s, env.pathExists p) ∧
    (∀ s, getTrackedFormattablePaths env = .ok s → ∀ p ∈ s, env.pathExists p) :=
  ⟨fun f s h => getGlobsFromFile_ok_exists env f s h,
   fun s h => getFormattablePaths_ok_exists env s h,
   fun fc tc l h => getChangedFiles_ok_exists env fc tc l h,
   fun c s h => getFilesToFormat_ok_exists env c s h,
   fun s h => getTrackedFormattablePaths_ok_exists env s h⟩

/-- Witness for the amended C8 on `sampleEnv`: the changed file `a.py`
returned by `getChangedFiles` exists. -/
theorem resolution_existence_invariant_witness :
    sampleEnv.pathExists "a.py" = true :=
  (resolution_existence_invariant sampleEnv).2.2.1 "abc123" "HEAD"
    ["a.py", "b.txt", "c.py"] (by decide) "a.py" (by decide)

/-- The seed of a left `max` fold is dominated by the fold. -/
theorem le_foldl_max (xs : List Int) : ∀ x, x ≤ xs.foldl max x := by
  induction xs with
  | nil => intro x; exact le_refl x
  | cons a as ih => intro x; exact le_trans (le_max_left x a) (ih (max x a))

/-- Every list element is dominated by a left `max` fold over the list. -/
theorem mem_le_foldl_max (xs : List Int) : ∀ x, ∀ y ∈ xs, y ≤ xs.foldl max x := by
  induction xs with
  | nil => simp
  | cons a as ih =>
    intro x y hy
    rcases List.mem_cons.mp hy with rfl | hy
    · exact le_trans (le_max_right x y) (le_foldl_max as (max x y))
    · exact ih (max x a) y hy

/-- A left `max` fold is the seed or one of the list elements. -/
theorem foldl_max_mem (xs : List Int) : ∀ x, xs.foldl max x = x ∨ xs.foldl max x ∈ xs := by
  induction xs with
  | nil => intro x; exact Or.inl rfl
  | cons a as ih =>
    intro x
    rcases ih (max x a) with h | h
    · rcases max_choice x a with hx | hx
      · exact Or.inl (by rw [List.foldl_cons, h, hx])
      · exact Or.inr (by rw [List.foldl_cons, h, hx]; exact List.mem_cons_self a as)
    · exact Or.inr (List.mem_cons_of_mem a h)

/-- Python `max` of a list returns a member that dominates every member. -/
theorem pyMax_spec (l : List Int) (m : Int) (h : pyMax l = some m) :
    m ∈ l ∧ ∀ y ∈ l, y ≤ m := by
  cases l with
  | nil => exact Option.noConfusion h
  | cons x xs =>
    have hm : m = xs.foldl max x := by
      have h2 : some (xs.foldl max x) = some m := h
      exact (Option.some.inj h2).symm
    constructor
    · rcases foldl_max_mem xs x with h0 | h0
      · rw [hm, h0]; exact List.mem_cons_self x xs
      · rw [hm]; exact List.mem_cons_of_mem x h0
    · intro y hy
      rcases List.mem_cons.mp hy with rfl | hy
      · rw [hm]; exact le_foldl_max xs y
      · rw [hm]; exact mem_le_foldl_max xs x y hy

/-- Python `max` fails exactly on the empty list. -/
theorem pyMax_eq_none_iff (l : List Int) : pyMax l = none ↔ l = [] := by
  cases l <;> simp [pyMax]

/-- Parsing a permuted entry list succeeds with a permuted value list, or
fails on both sides. -/
theorem parseSubdirs_perm {l₁ l₂ : List String} (h : l₁.Perm l₂) :
    (∃ s₁ s₂, parseSubdirs l₁ = .ok s₁ ∧ parseSubdirs l₂ = .ok s₂ ∧ s₁.Perm s₂) ∨
    ((∃ e₁, parseSubdirs l₁ = .error e₁) ∧ ∃ e₂, parseSubdirs l₂ = .error e₂) := by
  induction h with
  | nil => exact Or.inl ⟨[], [], rfl, rfl, List.Perm.refl []⟩
  | cons x h ih =>
    cases hx : pyInt x with
    | none =>
      exact Or.inr ⟨⟨.valueError x, by simp [parseSubdirs, hx]⟩,
        ⟨.valueError x, by simp [parseSubdirs, hx]⟩⟩
    | some n =>
      rcases ih with ⟨s₁, s₂, h1, h2, hp⟩ | ⟨⟨e₁, h1⟩, ⟨e₂, h2⟩⟩
      · exact Or.inl ⟨n :: s₁, n :: s₂, by simp [parseSubdirs, hx, h1, Except.map],
          by simp [parseSubdirs, hx, h2, Except.map], hp.cons n⟩
      · exact Or.inr ⟨⟨e₁, by simp [parseSubdirs, hx, h1, Except.map]⟩,
          ⟨e₂, by simp [parseSubdirs, hx, h2, Except.map]⟩⟩
  | swap x y l =>
    cases hy : pyInt y with
    | none =>
      cases hx : pyInt x with
      | none =>
        exact Or.inr ⟨⟨.valueError y, by simp [parseSubdirs, hy]⟩,
          ⟨.valueError x, by simp [parseSubdirs, hx]⟩⟩
      | some n =>
        exact Or.inr ⟨⟨.valueError y, by simp [parseSubdirs, hy]⟩,
          ⟨.valueError y, by simp [parseSubdirs, hx, hy, Except.map]⟩⟩
    | some m =>
      cases hx : pyInt x with
      | none =>
        exact Or.inr ⟨⟨.valueError x, by simp [parseSubdirs, hx, hy, Except.map]⟩,
          ⟨.valueError x, by simp [parseSubdirs, hx]⟩⟩
      | some n =>
        cases hl : parseSubdirs l with
        | error e =>
          exact Or.inr ⟨⟨e, by simp [parseSubdirs, hx, hy, hl, Except.map]⟩,
            ⟨e, by simp [parseSubdirs, hx, hy, hl, Except.map]⟩⟩
        | ok s =>
          exact Or.inl ⟨m :: n :: s, n :: m :: s,
            by simp [parseSubdirs, hx, hy, hl, Except.map],
            by simp [parseSubdirs, hx, hy, hl, Except.map], List.Perm.swap n m s⟩
  | trans h12 h23 ih12 ih23 =>
    rcases ih12 with ⟨s₁, s₂, h1, h2, hp⟩ | ⟨⟨e₁, h1⟩, ⟨e₂, h2⟩⟩
    · rcases ih23 with ⟨t₂, t₃, h2b, h3, hp2⟩ | ⟨⟨f₂, h2b⟩, ⟨f₃, h3⟩⟩
      · have ht : s₂ = t₂ := by
          rw [h2] at h2b
          exact Except.ok.inj h2b
        exact Or.inl ⟨s₁, t₃, h1, h3, (ht ▸ hp).trans hp2⟩
      · rw [h2] at h2b; exact Except.noConfusion h2b
    · rcases ih23 with ⟨t₂, t₃, h2b, h3, hp2⟩ | ⟨⟨f₂, h2b⟩, ⟨f₃, h3⟩⟩
      · rw [h2] at h2b; exact Except.noConfusion h2b
      · exact Or.inr ⟨⟨e₁, h1⟩, ⟨f₃, h3⟩⟩

/-- Parsing the entry list succeeds when every entry parses as an
integer. -/
theorem parseSubdirs_ok_of_all (entries : List String)
    (h : ∀ e ∈ entries, (pyInt e).isSome) : ∃ l, parseSubdirs entries = .ok l := by
  induction entries with
  | nil => exact ⟨[], rfl⟩
  | cons e rest ih =>
    cases he : pyInt e with
    | none =>
      have hmem := h e (List.mem_cons_self e rest)
      rw [he] at hmem
      simp at hmem
    | some n =>
      obtain ⟨l, hl⟩ := ih (fun x hx => h x (List.mem_cons_of_mem e hx))
      exact ⟨n :: l, by simp [parseSubdirs, he, hl, Except.map]⟩

/-- Specialisation of `List.find?_cons_of_pos` with the predicate given
explicitly. -/
theorem find?_cons_pos (p : String → Bool) (a : String) (l : List String)
    (h : p a = true) : (a :: l).find? p = some a :=
  List.find?_cons_of_pos l h

/-- Specialisation of `List.find?_cons_of_neg` with the predicate given
explicitly. -/
theorem find?_cons_neg (p : String → Bool) (a : String) (l : List String)
    (h : ¬p a = true) : (a :: l).find? p = l.find? p :=
  List.find?_cons_of_neg l h

/-- Parsing the entry list raises `ValueError` on the first entry whose
name `int()` rejects. -/
theorem parseSubdirs_first_bad (entries : List String) (bad : String)
    (hfind : entries.find? (fun e => (pyInt e).isNone) = some bad) :
    parseSubdirs entries = .error (.valueError bad) := by
  induction entries with
  | nil => exact Option.noConfusion hfind
  | cons e rest ih =>
    cases he : pyInt e with
    | none =>
      have hpe : (fun e => (pyInt e).isNone) e = true := by simp [he]
      rw [find?_cons_pos (fun e => (pyInt e).isNone) e rest hpe] at hfind
      have hbe : e = bad := Option.some.inj hfind
      subst hbe
      simp [parseSubdirs, he]
    | some n =>
      have hpe : ¬((fun e => (pyInt e).isNone) e = true) := by simp [he]
      rw [find?_cons_neg (fun e => (pyInt e).isNone) e rest hpe] at hfind
      simp [parseSubdirs, he, ih hfind, Except.map]

/-- Claim C4: an empty per-user directory yields revision directory `0`;
a per-user directory whose entries are exactly `{0, 1, 3}` (in any order)
yields revision directory `4`; and in general every successful allocation
returns directory `max + 1`, never filling gaps. -/
theorem createTmpDir_numbering :
    createTmpDir [] = .ok ("0", ["0"]) ∧
    (∀ entries, entries.Perm ["0", "1", "3"] →
      createTmpDir entries = .ok ("4", entries ++ ["4"])) ∧
    (∀ entries subdirs m r st2,
      parseSubdirs entries = .ok subdirs → pyMax subdirs = some m →
      createTmpDir entries = .ok (r, st2) → r = toString (m + 1)) := by
  refine ⟨by decide, ?_, ?_⟩
  · intro entries hperm
    rcases parseSubdirs_perm hperm with ⟨s₁, s₂, h1, h2, hp⟩ | ⟨⟨e₁, h1⟩, ⟨e₂, h2⟩⟩
    · have h013 : parseSubdirs ["0", "1", "3"] = .ok [0, 1, 3] := by decide
      rw [h2] at h013
      have hs₂ : s₂ = [0, 1, 3] := Except.ok.inj h013
      subst hs₂
      obtain ⟨m, hm⟩ : ∃ m, pyMax s₁ = some m := by
        cases hs : s₁ with
        | nil =>
          have := hp.length_eq
          rw [hs] at this
          exact absurd this (by decide)
        | cons a as => exact ⟨as.foldl max a, rfl⟩
      obtain ⟨hmem, hbound⟩ := pyMax_spec s₁ m hm
      have h3le : (3 : Int) ≤ m := hbound 3 (hp.mem_iff.mpr (by decide))
      have h0 : m = 0 ∨ m = 1 ∨ m = 3 := by
        have hmm : m ∈ [(0 : Int), 1, 3] := hp.mem_iff.mp hmem
        simpa using hmm
      have hm3 : m = 3 := by
        rcases h0 with rfl | rfl | rfl
        · exact absurd h3le (by decide)
        · exact absurd h3le (by decide)
        · rfl
      subst hm3
      have h4 : toString ((3 : Int) + 1) = "4" := by decide
      have hnot : ("4" : String) ∉ entries := by
        intro hmem4
        rw [hperm.mem_iff] at hmem4
        exact absurd hmem4 (by decide)
      simp only [createTmpDir, h1, bind, Except.bind, hm, h4]
      rw [if_neg hnot]
    · have h013 : parseSubdirs ["0", "1", "3"] = .ok [0, 1, 3] := by decide
      rw [h2] at h013
      exact Except.noConfusion h013
  · intro entries subdirs m r st2 h1 h2 h3
    simp only [createTmpDir, h1, bind, Except.bind, h2] at h3
    split at h3
    · exact Except.noConfusion h3
    · have hpair := Except.ok.inj h3
      exact (congrArg Prod.fst hpair).symm

/-- Witness for C4: the entry lists `["1", "3", "0"]` and `["0", "1", "3"]`
both allocate directory `4`, and `4` is `max {0, 1, 3} + 1`. -/
theorem createTmpDir_numbering_witness :
    createTmpDir ["1", "3", "0"] = .ok ("4", ["1", "3", "0", "4"]) ∧
      "4" = toString ((3 : Int) + 1) :=
  ⟨createTmpDir_numbering.2.1 ["1", "3", "0"] (by decide),
   createTmpDir_numbering.2.2 ["0", "1", "3"] [0, 1, 3] 3 "4" ["0", "1", "3", "4"]
     (by decide) (by decide) (by decide)⟩

/-- Claim C5: when some entry of the per-user directory does not parse as
an integer, `createTmpDir` raises `ValueError` identifying the first such
entry, and creates no revision directory: in the model an error result
carries no updated entry list, matching the source where
`revisionDir.mkdir()` runs only after the whole loop has succeeded. -/
theorem createTmpDir_corruption (entries : List String) (bad : String)
    (hfind : entries.find? (fun e => (pyInt e).isNone) = some bad) :
    createTmpDir entries = .error (.valueError bad) := by
  have := parseSubdirs_first_bad entries bad hfind
  simp only [createTmpDir, this, bind, Except.bind]

/-- Witness for C5: a `scratch` entry aborts the allocation. -/
theorem createTmpDir_corruption_witness :
    createTmpDir ["0", "scratch", "1"] = .error (.valueError "scratch") :=
  createTmpDir_corruption ["0", "scratch", "1"] "scratch" (by decide)

/-- Counterexample to C6 as stated: an entry `"-1"` parses as a negative
integer, yet `createTmpDir` does not fail with the corruption error: it
succeeds and allocates `max(-1) + 1 = 0`. -/
theorem negative_entry_counterexample :
    createTmpDir ["-1"] = .ok ("0", ["-1", "0"]) := by decide

/-- Claim C6 (amended): every entry must parse as an integer via `int()`,
sign included; an entry parseable only as a negative integer such as
`"-1"` is accepted and participates in the max-plus-one computation
rather than raising the corruption error, which is reserved for entries
that fail integer parsing altogether. -/
theorem createTmpDir_accepts_negatives (entries : List String)
    (h : ∀ e ∈ entries, (pyInt e).isSome) :
    (∀ bad, createTmpDir entries ≠ .error (.valueError bad)) ∧
      createTmpDir ["-1"] = .ok ("0", ["-1", "0"]) := by
  refine ⟨?_, by decide⟩
  intro bad hcontra
  obtain ⟨l, hl⟩ := parseSubdirs_ok_of_all entries h
  simp only [createTmpDir, hl, bind, Except.bind] at hcontra
  split at hcontra
  · exact PyError.noConfusion (Except.error.inj hcontra)
  · exact Except.noConfusion hcontra

/-- Witness for the amended C6: with the single entry `"-1"` the
allocator rejects nothing and creates directory `0`. -/
theorem createTmpDir_accepts_negatives_witness :
    createTmpDir ["-1"] ≠ .error (.valueError "scratch") ∧
      createTmpDir ["-1"] = .ok ("0", ["-1", "0"]) :=
  ⟨(createTmpDir_accepts_negatives ["-1"] (by decide)).1 "scratch",
   (createTmpDir_accepts_negatives ["-1"] (by decide)).2⟩

end FileHandler
